import Mathlib

/-!
Verification of the certificate-audit module `hubblestack_nova/modules/openssl.py`.

The Python module is shallowly embedded below.  Conventions used throughout:

* A Python `datetime` value is a `PyDateTime`: an ordinal day number plus the
  microsecond offset inside that day.  Subtraction of two datetimes produces a
  `timedelta`; Python normalises the delta with floor division, which is what
  `timedelta_days` computes.
* A parsed X.509 certificate is a `Cert`: the library-provided
  `has_expired()` boolean together with the `notAfter`/`notBefore` instants
  (the two signals are kept separate, exactly as in the source).
* External effects are passed explicitly: the network
  (`ssl.get_server_certificate`, which returns `Option.none` when any
  exception is raised), the PEM parser (`OpenSSL.crypto.load_certificate`,
  `Option.none` on `OpenSSL.crypto.Error`), the filesystem (`Option.none` on
  `IOError`), the clock, and the `fnmatch` glob test are all oracles bundled
  in `Env` or passed as parameters.
* Python dictionaries that the module only reads through fixed keys with
  defaults are embedded as the structure `TagData` whose fields carry the
  defaulted values (`tag_data.get('endpoint', None)` and so on).  Python
  truthiness of an optional string (`None` and the empty string are falsy)
  is `pyTruthy`.
-/

/-- A UTC instant in the style of a Python `datetime`: an ordinal day number
together with the microsecond offset inside that day. -/
structure PyDateTime where
  day : Int
  usOfDay : Int
deriving DecidableEq

/-- Microseconds per day, the resolution of a Python `timedelta`. -/
def usPerDay : Int := 86400000000

/-- The `.days` field of the Python `timedelta` `a - b`: Python normalises
the pair (day difference, sub-day microsecond difference) with floor
division, carrying the sub-day part into the day count. -/
def timedelta_days (a b : PyDateTime) : Int :=
  (a.day - b.day) + Int.fdiv (a.usOfDay - b.usOfDay) usPerDay

/-- Total microseconds of an instant since the calendar origin; used only in
statements, to express `timedelta_days` as one floor division. -/
def dtTotalUs (d : PyDateTime) : Int := d.day * usPerDay + d.usOfDay

/-- A parsed X.509 certificate as the module uses it: the library-provided
`has_expired()` flag and the two validity-boundary instants obtained from
`get_notAfter()` / `get_notBefore()` via `strptime`. -/
structure Cert where
  hasExpired : Bool
  notAfter : PyDateTime
  notBefore : PyDateTime
deriving DecidableEq

/-- Return value of `_get_x509_days_left`: the dictionary
`{'notAfter': ..., 'notBefore': ...}` of signed day counts. -/
structure DaysLeft where
  notAfter : Int
  notBefore : Int
deriving DecidableEq

/-- Embedding of `_get_x509_days_left` (openssl.py lines 273-282): the day
components of `certificate boundary - utcnow()` for both boundaries. -/
def _get_x509_days_left (x509 : Cert) (current_datetime : PyDateTime) : DaysLeft :=
  { notAfter := timedelta_days x509.notAfter current_datetime,
    notBefore := timedelta_days x509.notBefore current_datetime }

/-- Embedding of `_check_x509` (openssl.py lines 219-234).  The current time
is an explicit argument because the Python body reads the clock through
`_get_x509_days_left`.  The reason strings are byte-for-byte those of the
source, including its spelling `less then` / `more then`. -/
def _check_x509 (x509 : Option Cert) (notBefore : Int) (notAfter : Int)
    (fail_if_notBefore : Bool) (current_datetime : PyDateTime) : Bool × String :=
  match x509 with
  | Option.none => (false, "No certificate to be checked")
  | Option.some c =>
    if c.hasExpired then (false, "The certificate is expired")
    else
      let stats := _get_x509_days_left c current_datetime
      if notAfter ≥ stats.notAfter then
        (false, "The certificate will expire in less then " ++ toString notAfter ++ " days")
      else if notBefore ≤ stats.notBefore then
        if notBefore == 0 && fail_if_notBefore then
          (false, "The certificate is not yet valid (" ++ toString stats.notBefore
            ++ " days left until it will be valid)")
        else
          (false, "The certificate will be valid in more then " ++ toString notBefore ++ " days")
      else (true, "")

/-- Embedding of `_load_x509_from_endpoint` (openssl.py lines 245-257).
`get_server_certificate` is the result of the guarded
`ssl.get_server_certificate((server, port))` call: `Option.none` when any
exception was raised.  The source then returns `None` for a falsy (`None` or
empty) PEM string, and otherwise parses it with
`OpenSSL.crypto.load_certificate`, which is the oracle `load_certificate`
(`Option.none` models `OpenSSL.crypto.Error`). -/
def _load_x509_from_endpoint (load_certificate : String → Option Cert)
    (get_server_certificate : Option String) : Option Cert :=
  match get_server_certificate with
  | Option.none => Option.none
  | Option.some cert =>
    if cert.isEmpty then Option.none else load_certificate cert

/-- Embedding of `_load_x509_from_file` (openssl.py lines 260-270).
`read_result` is the guarded `open(path)` / `read()`: `Option.none` models
`IOError` (missing or unreadable file). -/
def _load_x509_from_file (load_certificate : String → Option Cert)
    (read_result : Option String) : Option Cert :=
  match read_result with
  | Option.none => Option.none
  | Option.some contents => load_certificate contents

/-- Python truthiness of an optional string: `None` and the empty string are
falsy, every other string is truthy.  This is how the audit loop tests
`if not endpoint`, `if endpoint`, and so on. -/
def pyTruthy : Option String → Bool
  | Option.none => false
  | Option.some s => !s.isEmpty

/-- One record of `__tags__[tag]` as the audit loop reads it: the fields are
the values that `tag_data.get(key, default)` produces, with the defaults of
openssl.py lines 118-123 already applied at access time.  `control`,
`description`, `endpoint`, `file` and `reason` model optional keys
(`Option.none` = key absent / value `None`). -/
structure TagData where
  tag : String
  description : Option String
  control : Option String
  endpoint : Option String
  file : Option String
  port : Int
  notAfter : Int
  notBefore : Int
  fail_if_not_before : Bool
  reason : Option String
deriving DecidableEq

/-- Outcome of the loop body for one `tag_data`: which bucket the record is
appended to, carrying the record exactly as appended (for failures, with the
`reason` key written first, openssl.py lines 127, 133, 146). -/
inductive EntryResult
  | success (d : TagData)
  | failure (d : TagData)
  | controlled (d : TagData)
deriving DecidableEq

/-- The effectful collaborators of the audit loop, passed explicitly:
the network call `ssl.get_server_certificate((server, port))` guarded by its
`except Exception` (`Option.none` = exception raised), the PEM parser
guarded by its `except OpenSSL.crypto.Error`, the guarded file read
(`Option.none` = `IOError`), and the clock `datetime.datetime.utcnow()`. -/
structure Env where
  get_server_certificate : String → Int → Option String
  load_certificate : String → Option Cert
  read_file : String → Option String
  current_datetime : PyDateTime

/-- Embedding of the body of the audit loop for one record (openssl.py lines
114-147): control suppression first, then the two source-validity checks,
then acquisition through `_load_x509` and evaluation by `_check_x509`. -/
def processEntry (env : Env) (d : TagData) : EntryResult :=
  if d.control.isSome then EntryResult.controlled d
  else if !pyTruthy d.endpoint && !pyTruthy d.file then
    EntryResult.failure { d with reason := Option.some "No certificate to be checked" }
  else if pyTruthy d.endpoint && pyTruthy d.file then
    EntryResult.failure { d with reason := Option.some "Only one certificate per check is allowed" }
  else
    let x509 :=
      if pyTruthy d.endpoint then
        _load_x509_from_endpoint env.load_certificate
          (env.get_server_certificate (d.endpoint.getD "") d.port)
      else
        _load_x509_from_file env.load_certificate (env.read_file (d.file.getD ""))
    let r := _check_x509 x509 d.notBefore d.notAfter d.fail_if_not_before env.current_datetime
    if r.1 then EntryResult.success d
    else EntryResult.failure { d with reason := Option.some r.2 }

/-- The three verbose result buckets `ret['Success']`, `ret['Failure']`,
`ret['Controlled']`, in append order. -/
structure RetV where
  Success : List TagData
  Failure : List TagData
  Controlled : List TagData
deriving DecidableEq

/-- Inner loop over `__tags__[tag]` (openssl.py lines 113-147): each record
is routed to its bucket; list order is the append order of the source. -/
def processGroup (env : Env) : List TagData → RetV
  | [] => ⟨[], [], []⟩
  | d :: rest =>
    let r := processGroup env rest
    match processEntry env d with
    | EntryResult.success d' => ⟨d' :: r.Success, r.Failure, r.Controlled⟩
    | EntryResult.failure d' => ⟨r.Success, d' :: r.Failure, r.Controlled⟩
    | EntryResult.controlled d' => ⟨r.Success, r.Failure, d' :: r.Controlled⟩

/-- Outer loop over `__tags__` (openssl.py lines 111-147).  `tagsMatch` is
the oracle for the external `fnmatch.fnmatch(tag, tags)` glob test; the tag
map is the iteration sequence of the `__tags__` dictionary. -/
def auditLoop (env : Env) (tagsMatch : String → Bool) : List (String × List TagData) → RetV
  | [] => ⟨[], [], []⟩
  | (tag, tds) :: rest =>
    let r := auditLoop env tagsMatch rest
    if tagsMatch tag then
      let g := processGroup env tds
      ⟨g.Success ++ r.Success, g.Failure ++ r.Failure, g.Controlled ++ r.Controlled⟩
    else r

/-- Non-verbose collapse of a Success or Failure bucket (openssl.py lines
156-170): one `{tag: description}` item per unseen `(tag, description)`
pair, first-seen order, the seen set threaded as a list. -/
def collapseBucket : List TagData → List (String × Option String) → List (String × Option String)
  | [], _ => []
  | d :: rest, seen =>
    if (d.tag, d.description) ∈ seen then collapseBucket rest seen
    else (d.tag, d.description) :: collapseBucket rest ((d.tag, d.description) :: seen)

/-- Non-verbose collapse of the Controlled bucket (openssl.py lines
174-182): one `{tag: {'description': ..., 'control': ...}}` item per unseen
`(tag, description, control)` triple, where the control reason is
`tag_data.get('control', '')`. -/
def collapseControlled :
    List TagData → List (String × Option String × String) → List (String × Option String × String)
  | [], _ => []
  | d :: rest, seen =>
    if (d.tag, d.description, d.control.getD "") ∈ seen then collapseControlled rest seen
    else (d.tag, d.description, d.control.getD "")
      :: collapseControlled rest ((d.tag, d.description, d.control.getD "") :: seen)

/-- The returned dictionary of a non-verbose run: the collapsed buckets,
with `Controlled = Option.none` when the key was popped (openssl.py lines
188-189, the `if not ret['Controlled']: ret.pop('Controlled')` step). -/
structure RetNV where
  Success : List (String × Option String)
  Failure : List (String × Option String)
  Controlled : Option (List (String × Option String × String))
deriving DecidableEq

/-- Embedding of `audit(data_list, tags, verbose=False)` from the start of
the bucket loop onwards, for a non-verbose run (openssl.py lines 110-191):
run the loop, collapse each bucket, and pop an empty Controlled bucket. -/
def audit_nonverbose (env : Env) (tagsMatch : String → Bool)
    (tagsMap : List (String × List TagData)) : RetNV :=
  let ret := auditLoop env tagsMatch tagsMap
  let failure := collapseBucket ret.Failure []
  let success := collapseBucket ret.Success []
  let controlled := collapseControlled ret.Controlled []
  { Success := success, Failure := failure,
    Controlled := if controlled.isEmpty then Option.none else Option.some controlled }

/-- The `{tag: description}` item a Success or Failure record collapses to
in non-verbose mode, which is also the dedup key used for it. -/
def bucketKey (d : TagData) : String × Option String := (d.tag, d.description)

/-- The `{tag: {'description': ..., 'control': ...}}` item a Controlled
record collapses to, which is also the dedup key used for it. -/
def controlledKey (d : TagData) : String × Option String × String :=
  (d.tag, d.description, d.control.getD "")

/-- The common shape of both collapse loops over an already-mapped key list:
emit each key not yet in the seen set, first-seen order. -/
def dedupKeys {α : Type} [DecidableEq α] : List α → List α → List α
  | [], _ => []
  | k :: rest, seen =>
    if k ∈ seen then dedupKeys rest seen else k :: dedupKeys rest (k :: seen)

/-!
Reference-level model of the input plumbing, for the mutation behaviour of
`audit`.  Python dictionaries here are association lists; the per-entry
`data` dictionaries, which are shared by reference between the caller's
`data_list` and the merged `__data__` (because `_merge_yaml` appends the
very same objects), live in a `Store` and are addressed by `PVal.vref`.
`copy.deepcopy` severs sharing, so the deep copy of a scalar-valued `data`
dictionary is embedded as the plain value copy.
-/

/-- A scalar-or-reference Python value as it occurs in the audit YAML
dictionaries. -/
inductive PVal
  | vs (s : String)
  | vi (n : Int)
  | vb (b : Bool)
  | vnone
  | vref (r : Nat)
deriving DecidableEq

/-- A Python dictionary as an association list (keys unique in well-formed
inputs). -/
abbrev Dict := List (String × PVal)

/-- The heap of shared, mutable `data` dictionaries, addressed by
`PVal.vref` indices. -/
abbrev Store := List Dict

/-- `d[k]` lookup returning the first binding. -/
def dictLookup : Dict → String → Option PVal
  | [], _ => Option.none
  | (k', v) :: rest, k => if k' = k then Option.some v else dictLookup rest k

/-- `d.pop(k)` without a default: the value and the dictionary with the
binding removed, or `Option.none` (a `KeyError`) when the key is absent. -/
def dictPop : Dict → String → Option (PVal × Dict)
  | [], _ => Option.none
  | (k', v) :: rest, k =>
    if k' = k then Option.some (v, rest)
    else
      match dictPop rest k with
      | Option.none => Option.none
      | Option.some (v', rest') => Option.some (v', (k', v) :: rest')

/-- `d[k] = v`: overwrite the existing binding or append a new one. -/
def dictSet : Dict → String → PVal → Dict
  | [], k, v => [(k, v)]
  | (k', v') :: rest, k, v =>
    if k' = k then (k, v) :: rest else (k', v') :: dictSet rest k v

/-- `d.update(e)`: set every binding of `e` into `d`, in order. -/
def dictUpdate (d : Dict) : Dict → Dict
  | [] => d
  | (k, v) :: rest => dictUpdate (dictSet d k v) rest

/-- Dereference a store address (out-of-range reads give the empty
dictionary, on which every `pop` fails). -/
def storeGet (σ : Store) (r : Nat) : Dict := σ.getD r []

/-- Write back a mutated dictionary at a store address. -/
def storeSet (σ : Store) (r : Nat) (d : Dict) : Store := σ.set r d

/-- Embedding of `_merge_yaml` (openssl.py lines 194-199) restricted to the
`openssl` sub-dictionary of one element of `data_list`: each
`(key, val)` item is appended as the singleton dictionary `{key: val}`,
sharing `val` (and hence its `data` reference) with the caller. -/
def _merge_yaml (ret : List (List (String × Dict))) (data : List (String × Dict)) :
    List (List (String × Dict)) :=
  ret ++ data.map (fun kv => [kv])

/-- The body of `_get_tags` for one `audit_data` (openssl.py lines 205-215):
fetch the shared `data` dictionary through its reference, pop `tag` out of
it in place, then build `formatted_data` from a deep copy.  `Option.none`
models the exceptions the source would raise (missing or non-dictionary
`data`, missing `tag` key, and the unreachable failing `pop('data')`). -/
def getTagsEntry (σ : Store) (audit_data : Dict) : Option (PVal × Dict × Store) :=
  match dictLookup audit_data "data" with
  | Option.some (PVal.vref r) =>
    match dictPop (storeGet σ r) "tag" with
    | Option.none => Option.none
    | Option.some (tagv, popped) =>
      let σ' := storeSet σ r popped
      let formatted := dictUpdate (dictSet (dictSet popped "tag" tagv) "module"
        (PVal.vs "openssl")) audit_data
      match dictPop formatted "data" with
      | Option.none => Option.none
      | Option.some (_, formatted') => Option.some (tagv, formatted', σ')
  | _ => Option.none

/-- `ret[tag].append(formatted_data)` with `ret[tag] = []` on first sight
(openssl.py lines 208-209, 215). -/
def appendTag : List (PVal × List Dict) → PVal → Dict → List (PVal × List Dict)
  | [], tagv, fd => [(tagv, [fd])]
  | (t, l) :: rest, tagv, fd =>
    if t = tagv then (t, l ++ [fd]) :: rest
    else (t, l) :: appendTag rest tagv fd

/-- The `_get_tags` loop over the flattened `(audit_id, audit_data)`
sequence, threading the store of shared `data` dictionaries. -/
def getTagsLoop : Store → List (String × Dict) → List (PVal × List Dict) →
    Option (List (PVal × List Dict) × Store)
  | σ, [], ret => Option.some (ret, σ)
  | σ, (_, audit_data) :: rest, ret =>
    match getTagsEntry σ audit_data with
    | Option.none => Option.none
    | Option.some (tagv, fd, σ') => getTagsLoop σ' rest (appendTag ret tagv fd)

/-- Embedding of `_get_tags` (openssl.py lines 202-216) over the merged
`__data__['openssl']` list of singleton audit dictionaries. -/
def _get_tags (σ : Store) (data_openssl : List (List (String × Dict))) :
    Option (List (PVal × List Dict) × Store) :=
  getTagsLoop σ data_openssl.flatten []

/-- The input-consuming phase of `audit` (openssl.py lines 100-103): merge
every element of `data_list` and build `__tags__`, returning the tag map
and the post-state of the shared `data` dictionaries. -/
def audit_data_phase (σ : Store) (data_list : List (List (String × Dict))) :
    Option (List (PVal × List Dict) × Store) :=
  _get_tags σ (data_list.foldl _merge_yaml [])

/-- The store address of one `(audit_id, audit_data)` item's `data`
dictionary, when `audit_data` carries one. -/
def entryRef (e : String × Dict) : Option Nat :=
  match dictLookup e.2 "data" with
  | Option.some (PVal.vref r) => Option.some r
  | _ => Option.none

/-! ### Concrete sample inputs used by witnesses and counterexamples -/

/-- An environment in which every external interaction fails: the network
call raises, the PEM parser rejects everything, every file read raises. -/
def envNone : Env :=
  ⟨fun _ _ => Option.none, fun _ => Option.none, fun _ => Option.none, ⟨0, 0⟩⟩

/-- A non-controlled record with neither source configured. -/
def dNoSource : TagData :=
  ⟨"CERT-001", Option.some "google certificate", Option.none, Option.none, Option.none,
    443, 0, 0, false, Option.none⟩

/-- A non-controlled record with both sources configured. -/
def dBothSources : TagData :=
  ⟨"CERT-002", Option.some "google certificate", Option.none, Option.some "www.google.com",
    Option.some "/etc/ssl/certs/google.pem", 443, 0, 0, false, Option.none⟩

/-- A controlled record that also has both sources configured. -/
def dControlled : TagData :=
  ⟨"CERT-003", Option.some "suppressed check", Option.some "too noisy", Option.some "www.google.com",
    Option.some "/etc/ssl/certs/google.pem", 443, 0, 0, false, Option.none⟩

/-- A non-controlled record checking an endpoint only. -/
def dEndpoint : TagData :=
  ⟨"CERT-004", Option.some "endpoint check", Option.none, Option.some "www.google.com",
    Option.none, 443, 15, 2, false, Option.none⟩

/-- A non-controlled record checking a file only. -/
def dFileOnly : TagData :=
  ⟨"CERT-005", Option.some "file check", Option.none, Option.none,
    Option.some "/etc/ssl/certs/google.pem", 443, 0, 0, false, Option.none⟩

/-- A controlled record; shares tag and description with `dCtlB` but has a
different control reason. -/
def dCtlA : TagData :=
  ⟨"CERT-006", Option.some "duplicated description", Option.some "ticket-1", Option.none,
    Option.none, 443, 0, 0, false, Option.none⟩

/-- A controlled record; shares tag and description with `dCtlA` but has a
different control reason. -/
def dCtlB : TagData :=
  ⟨"CERT-006", Option.some "duplicated description", Option.some "ticket-2", Option.none,
    Option.none, 443, 0, 0, false, Option.none⟩

/-- A sample `(audit_id, audit_data)` item whose `data` dictionary lives at
store address 0. -/
def entrySample : String × Dict :=
  ("google", [("data", PVal.vref 0), ("description", PVal.vs "google certificate")])

/-- The sample store: one shared `data` dictionary holding a `tag` key. -/
def storeSample : Store :=
  [[("tag", PVal.vs "CERT-001"), ("endpoint", PVal.vs "www.google.com")]]

/-- The sample `data_list` for the mutation claim: one document whose
`openssl` section holds `entrySample`. -/
def dataListSample : List (List (String × Dict)) := [[entrySample]]

/-! ### Helper lemmas -/

/-- A concatenation whose left part is a nonempty string is nonempty. -/
theorem str_append_ne_empty (s t : String) (h : s.length ≠ 0) : s ++ t ≠ "" := by
  intro hc
  have hl := congrArg String.length hc
  rw [String.length_append] at hl
  simp at hl
  omega

/-- A three-part concatenation whose first part is nonempty is nonempty. -/
theorem str_concat3_ne_empty (s t u : String) (h : s.length ≠ 0) : s ++ t ++ u ≠ "" := by
  intro hc
  have hl := congrArg String.length hc
  rw [String.length_append, String.length_append] at hl
  simp at hl
  omega

/-- `_check_x509` on an absent certificate. -/
theorem check_x509_absent (nB nA : Int) (f : Bool) (now : PyDateTime) :
    _check_x509 Option.none nB nA f now = (false, "No certificate to be checked") := rfl

/-- `_check_x509` on an expired certificate. -/
theorem check_x509_expired (c : Cert) (nB nA : Int) (f : Bool) (now : PyDateTime)
    (h : c.hasExpired = true) :
    _check_x509 (Option.some c) nB nA f now = (false, "The certificate is expired") := by
  simp [_check_x509, h]

/-- `_check_x509` when the expiry threshold rule fires. -/
theorem check_x509_expiry_threshold (c : Cert) (nB nA : Int) (f : Bool) (now : PyDateTime)
    (h : c.hasExpired = false) (hth : nA ≥ (_get_x509_days_left c now).notAfter) :
    _check_x509 (Option.some c) nB nA f now
      = (false, "The certificate will expire in less then " ++ toString nA ++ " days") := by
  simp [_check_x509, h, hth]

/-- `_check_x509` in the strict not-yet-valid sub-case. -/
theorem check_x509_notyet (c : Cert) (nB nA : Int) (f : Bool) (now : PyDateTime)
    (h : c.hasExpired = false) (hth : nA < (_get_x509_days_left c now).notAfter)
    (hnb : nB ≤ (_get_x509_days_left c now).notBefore) (h0 : nB = 0) (hf : f = true) :
    _check_x509 (Option.some c) nB nA f now
      = (false, "The certificate is not yet valid ("
          ++ toString ((_get_x509_days_left c now).notBefore)
          ++ " days left until it will be valid)") := by
  have hth' : ¬ nA ≥ (_get_x509_days_left c now).notAfter := by omega
  subst h0
  subst hf
  simp [_check_x509, h, hth', hnb]

/-- `_check_x509` in the general becomes-valid-later sub-case. -/
theorem check_x509_validlater (c : Cert) (nB nA : Int) (f : Bool) (now : PyDateTime)
    (h : c.hasExpired = false) (hth : nA < (_get_x509_days_left c now).notAfter)
    (hnb : nB ≤ (_get_x509_days_left c now).notBefore) (hnot : ¬ (nB = 0 ∧ f = true)) :
    _check_x509 (Option.some c) nB nA f now
      = (false, "The certificate will be valid in more then " ++ toString nB ++ " days") := by
  have hth' : ¬ nA ≥ (_get_x509_days_left c now).notAfter := by omega
  have hb : (nB == 0 && f) = false := by
    by_cases h0 : nB = 0
    · have hf : f = false := by
        cases f with
        | false => rfl
        | true => exact absurd ⟨h0, rfl⟩ hnot
      simp [h0, hf]
    · simp [h0]
  simp [_check_x509, h, hth', hnb, hb]

/-- `_check_x509` when every rule lets the certificate through. -/
theorem check_x509_pass (c : Cert) (nB nA : Int) (f : Bool) (now : PyDateTime)
    (h : c.hasExpired = false) (hth : nA < (_get_x509_days_left c now).notAfter)
    (hnb : nB > (_get_x509_days_left c now).notBefore) :
    _check_x509 (Option.some c) nB nA f now = (true, "") := by
  have h1 : ¬ nA ≥ (_get_x509_days_left c now).notAfter := by omega
  have h2 : ¬ nB ≤ (_get_x509_days_left c now).notBefore := by omega
  simp [_check_x509, h, h1, h2]

/-! ### Claim theorems -/

/-- C1: `_check_x509` returns `passed = true` with an empty reason exactly
when a certificate is present, its expired predicate is false, the
`notAfter` threshold is strictly below the days until expiry, and the
`notBefore` threshold is strictly above the days until validity; in every
other case it fails with a non-empty reason, so the reason is empty iff the
check passed. -/
theorem C1_pass_iff_reason_empty (x509 : Option Cert) (nB nA : Int) (f : Bool)
    (now : PyDateTime) :
    (((_check_x509 x509 nB nA f now).1 = true ∧ (_check_x509 x509 nB nA f now).2 = "")
      ↔ ∃ c, x509 = Option.some c ∧ c.hasExpired = false
          ∧ nA < (_get_x509_days_left c now).notAfter
          ∧ nB > (_get_x509_days_left c now).notBefore)
    ∧ ((_check_x509 x509 nB nA f now).2 = "" ↔ (_check_x509 x509 nB nA f now).1 = true) := by
  cases x509 with
  | none =>
    rw [check_x509_absent]
    constructor
    · constructor
      · rintro ⟨h1, -⟩
        simp at h1
      · rintro ⟨c, hc, -⟩
        simp at hc
    · constructor
      · intro h
        exact absurd h (by decide)
      · intro h
        simp at h
  | some c =>
    cases hE : c.hasExpired with
    | true =>
      rw [check_x509_expired c nB nA f now hE]
      constructor
      · constructor
        · rintro ⟨h1, -⟩
          simp at h1
        · rintro ⟨c', hc', hE', -⟩
          obtain rfl : c = c' := by injection hc'
          rw [hE] at hE'
          simp at hE'
      · constructor
        · intro h
          exact absurd h (by decide)
        · intro h
          simp at h
    | false =>
      by_cases h1 : nA ≥ (_get_x509_days_left c now).notAfter
      · rw [check_x509_expiry_threshold c nB nA f now hE h1]
        constructor
        · constructor
          · rintro ⟨hp, -⟩
            simp at hp
          · rintro ⟨c', hc', -, hth, -⟩
            obtain rfl : c = c' := by injection hc'
            omega
        · constructor
          · intro h
            exact absurd h (str_concat3_ne_empty _ _ _ (by decide))
          · intro h
            simp at h
      · have h1' : nA < (_get_x509_days_left c now).notAfter := by omega
        by_cases h2 : nB ≤ (_get_x509_days_left c now).notBefore
        · by_cases h0 : nB = 0 ∧ f = true
          · rw [check_x509_notyet c nB nA f now hE h1' h2 h0.1 h0.2]
            constructor
            · constructor
              · rintro ⟨hp, -⟩
                simp at hp
              · rintro ⟨c', hc', -, -, hvb⟩
                obtain rfl : c = c' := by injection hc'
                omega
            · constructor
              · intro h
                exact absurd h (str_concat3_ne_empty _ _ _ (by decide))
              · intro h
                simp at h
          · rw [check_x509_validlater c nB nA f now hE h1' h2 h0]
            constructor
            · constructor
              · rintro ⟨hp, -⟩
                simp at hp
              · rintro ⟨c', hc', -, -, hvb⟩
                obtain rfl : c = c' := by injection hc'
                omega
            · constructor
              · intro h
                exact absurd h (str_concat3_ne_empty _ _ _ (by decide))
              · intro h
                simp at h
        · have h2' : nB > (_get_x509_days_left c now).notBefore := by omega
          rw [check_x509_pass c nB nA f now hE h1' h2']
          constructor
          · constructor
            · intro _
              exact ⟨c, rfl, hE, h1', h2'⟩
            · intro _
              exact ⟨rfl, rfl⟩
          · simp

/-- C2 counterexample: a present, non-expired certificate that passed the
expiry rule, with `notBefore = 5 <= daysUntilValid = 10` and threshold
nonzero, fails with the source's exact wording `more then`, which differs
from the claimed wording `more than`. -/
theorem C2_counterexample :
    Cert.hasExpired ⟨false, ⟨100, 0⟩, ⟨10, 0⟩⟩ = false
    ∧ (0 : Int) < (_get_x509_days_left ⟨false, ⟨100, 0⟩, ⟨10, 0⟩⟩ ⟨0, 0⟩).notAfter
    ∧ (5 : Int) ≤ (_get_x509_days_left ⟨false, ⟨100, 0⟩, ⟨10, 0⟩⟩ ⟨0, 0⟩).notBefore
    ∧ _check_x509 (Option.some ⟨false, ⟨100, 0⟩, ⟨10, 0⟩⟩) 5 0 false ⟨0, 0⟩
        = (false, "The certificate will be valid in more then 5 days")
    ∧ (_check_x509 (Option.some ⟨false, ⟨100, 0⟩, ⟨10, 0⟩⟩) 5 0 false ⟨0, 0⟩).2
        ≠ "The certificate will be valid in more than 5 days" := by
  decide

/-- C2 (amended): for a present, non-expired certificate past the expiry
rule with `notBeforeThreshold <= daysUntilValid`, the evaluator fails; when
`notBeforeThreshold == 0` and `failIfNotBefore` the reason is exactly
`The certificate is not yet valid ({daysUntilValid} days left until it will
be valid)`, otherwise exactly `The certificate will be valid in more then
{notBeforeThreshold} days` (the source spells `then`, not `than`). -/
theorem C2_notBefore_reasons (c : Cert) (nB nA : Int) (f : Bool) (now : PyDateTime)
    (h : c.hasExpired = false) (hth : nA < (_get_x509_days_left c now).notAfter)
    (hnb : nB ≤ (_get_x509_days_left c now).notBefore) :
    _check_x509 (Option.some c) nB nA f now
      = (false,
          if nB = 0 ∧ f = true then
            "The certificate is not yet valid ("
              ++ toString ((_get_x509_days_left c now).notBefore)
              ++ " days left until it will be valid)"
          else
            "The certificate will be valid in more then " ++ toString nB ++ " days") := by
  by_cases h0 : nB = 0 ∧ f = true
  · rw [if_pos h0]
    exact check_x509_notyet c nB nA f now h hth hnb h0.1 h0.2
  · rw [if_neg h0]
    exact check_x509_validlater c nB nA f now h hth hnb h0

/-- C2 witness: the strict sub-case at a concrete input. -/
theorem C2_witness :
    Cert.hasExpired ⟨false, ⟨100, 0⟩, ⟨10, 0⟩⟩ = false
    ∧ (0 : Int) < (_get_x509_days_left ⟨false, ⟨100, 0⟩, ⟨10, 0⟩⟩ ⟨0, 0⟩).notAfter
    ∧ (0 : Int) ≤ (_get_x509_days_left ⟨false, ⟨100, 0⟩, ⟨10, 0⟩⟩ ⟨0, 0⟩).notBefore
    ∧ _check_x509 (Option.some ⟨false, ⟨100, 0⟩, ⟨10, 0⟩⟩) 0 0 true ⟨0, 0⟩
        = (false, "The certificate is not yet valid (10 days left until it will be valid)") :=
  ⟨by decide, by decide, by decide,
    (C2_notBefore_reasons ⟨false, ⟨100, 0⟩, ⟨10, 0⟩⟩ 0 0 true ⟨0, 0⟩ rfl (by decide)
      (by decide)).trans (by decide)⟩

/-- C3 counterexample: a present, non-expired certificate with
`notAfterThreshold = 15 >= daysUntilExpiry = 10` fails with the source's
exact wording `less then`, which differs from the claimed `less than`. -/
theorem C3_counterexample :
    Cert.hasExpired ⟨false, ⟨10, 0⟩, ⟨-5, 0⟩⟩ = false
    ∧ (15 : Int) ≥ (_get_x509_days_left ⟨false, ⟨10, 0⟩, ⟨-5, 0⟩⟩ ⟨0, 0⟩).notAfter
    ∧ _check_x509 (Option.some ⟨false, ⟨10, 0⟩, ⟨-5, 0⟩⟩) 0 15 false ⟨0, 0⟩
        = (false, "The certificate will expire in less then 15 days")
    ∧ (_check_x509 (Option.some ⟨false, ⟨10, 0⟩, ⟨-5, 0⟩⟩) 0 15 false ⟨0, 0⟩).2
        ≠ "The certificate will expire in less than 15 days" := by
  decide

/-- C3 (amended): for every present, non-expired certificate with
`notAfterThreshold >= daysUntilExpiry`, the evaluator fails with the reason
exactly `The certificate will expire in less then {notAfterThreshold} days`
(the source spells `then`, not `than`). -/
theorem C3_expiry_threshold_reason (c : Cert) (nB nA : Int) (f : Bool) (now : PyDateTime)
    (h : c.hasExpired = false) (hth : nA ≥ (_get_x509_days_left c now).notAfter) :
    _check_x509 (Option.some c) nB nA f now
      = (false, "The certificate will expire in less then " ++ toString nA ++ " days") :=
  check_x509_expiry_threshold c nB nA f now h hth

/-- C3 witness: the amended expiry-threshold rule at a concrete input. -/
theorem C3_witness :
    Cert.hasExpired ⟨false, ⟨10, 0⟩, ⟨-5, 0⟩⟩ = false
    ∧ (15 : Int) ≥ (_get_x509_days_left ⟨false, ⟨10, 0⟩, ⟨-5, 0⟩⟩ ⟨0, 0⟩).notAfter
    ∧ _check_x509 (Option.some ⟨false, ⟨10, 0⟩, ⟨-5, 0⟩⟩) 0 15 false ⟨0, 0⟩
        = (false, "The certificate will expire in less then 15 days") :=
  ⟨by decide, by decide,
    (C3_expiry_threshold_reason ⟨false, ⟨10, 0⟩, ⟨-5, 0⟩⟩ 0 15 false ⟨0, 0⟩ rfl
      (by decide)).trans (by decide)⟩

/-- C4: a non-controlled record with neither source is a Failure with
reason `No certificate to be checked`, and with both sources a Failure with
reason `Only one certificate per check is allowed`; in both cases the
outcome is the same for every environment, so no acquisition and no I/O is
attempted. -/
theorem C4_source_validation (env : Env) (d : TagData) (hc : d.control = Option.none) :
    (pyTruthy d.endpoint = false → pyTruthy d.file = false →
      processEntry env d
        = EntryResult.failure { d with reason := Option.some "No certificate to be checked" })
    ∧ (pyTruthy d.endpoint = true → pyTruthy d.file = true →
      processEntry env d
        = EntryResult.failure
            { d with reason := Option.some "Only one certificate per check is allowed" }) := by
  constructor
  · intro h1 h2
    simp [processEntry, hc, h1, h2]
  · intro h1 h2
    simp [processEntry, hc, h1, h2]

/-- C4 witness: both validation failures at concrete records, in the
environment in which every external call would fail if reached. -/
theorem C4_witness :
    processEntry envNone dNoSource
      = EntryResult.failure { dNoSource with reason := Option.some "No certificate to be checked" }
    ∧ processEntry envNone dBothSources
      = EntryResult.failure
          { dBothSources with reason := Option.some "Only one certificate per check is allowed" } :=
  ⟨(C4_source_validation envNone dNoSource rfl).1 rfl rfl,
    (C4_source_validation envNone dBothSources rfl).2 rfl rfl⟩

/-- C5: a present certificate whose library-provided expired predicate is
true fails with reason exactly `The certificate is expired`, for every
threshold pair, flag, clock value and certificate window, so the rule is
decided before and independently of the window computation. -/
theorem C5_expired_short_circuit (c : Cert) (nB nA : Int) (f : Bool) (now : PyDateTime)
    (h : c.hasExpired = true) :
    _check_x509 (Option.some c) nB nA f now = (false, "The certificate is expired") :=
  check_x509_expired c nB nA f now h

/-- C5 witness: an expired certificate whose computed window would still be
comfortably in the future. -/
theorem C5_witness :
    Cert.hasExpired ⟨true, ⟨100, 0⟩, ⟨-5, 0⟩⟩ = true
    ∧ _check_x509 (Option.some ⟨true, ⟨100, 0⟩, ⟨-5, 0⟩⟩) 0 0 false ⟨0, 0⟩
        = (false, "The certificate is expired") :=
  ⟨rfl, C5_expired_short_circuit ⟨true, ⟨100, 0⟩, ⟨-5, 0⟩⟩ 0 0 false ⟨0, 0⟩ rfl⟩

/-- `timedelta_days` is one floor division of the total microsecond
difference by the microseconds of a day. -/
theorem timedelta_days_eq_fdiv (a b : PyDateTime) :
    timedelta_days a b = Int.fdiv (dtTotalUs a - dtTotalUs b) usPerDay := by
  have hN : (usPerDay : Int) ≠ 0 := by decide
  have hNn : (0 : Int) ≤ usPerDay := by decide
  have hX : dtTotalUs a - dtTotalUs b
      = (a.usOfDay - b.usOfDay) + (a.day - b.day) * usPerDay := by
    unfold dtTotalUs
    ring
  unfold timedelta_days
  rw [hX, Int.fdiv_eq_ediv _ hNn, Int.fdiv_eq_ediv _ hNn, Int.add_mul_ediv_right _ _ hN]
  exact Int.add_comm _ _

/-- C6: the validity window calculator returns exactly the floor of the
signed microsecond difference between each certificate boundary and the
current instant, divided by one day, and both day counts can be negative.
The function returns only this data and makes no pass/fail judgment. -/
theorem C6_days_left_floor :
    (∀ (c : Cert) (now : PyDateTime),
      (_get_x509_days_left c now).notAfter
          = Int.fdiv (dtTotalUs c.notAfter - dtTotalUs now) usPerDay
        ∧ (_get_x509_days_left c now).notBefore
          = Int.fdiv (dtTotalUs c.notBefore - dtTotalUs now) usPerDay)
    ∧ (∃ (c : Cert) (now : PyDateTime),
        (_get_x509_days_left c now).notAfter < 0
        ∧ (_get_x509_days_left c now).notBefore < 0) := by
  constructor
  · intro c now
    exact ⟨timedelta_days_eq_fdiv _ _, timedelta_days_eq_fdiv _ _⟩
  · exact ⟨⟨false, ⟨-3, 0⟩, ⟨-7, 0⟩⟩, ⟨0, 0⟩, by decide, by decide⟩

/-- C7: every acquisition failure (network exception, empty reply, decode
error, file read error, parse error) makes the loader return an absent
certificate rather than raising; the evaluator turns an absent certificate
into the Failure reason `No certificate to be checked`; and an entry whose
acquisition fails contributes exactly that Failure while the remaining
entries are processed unchanged, identically for an unreachable endpoint
and for a missing file. -/
theorem C7_acquisition_failure_collapse :
    (∀ parse : String → Option Cert,
      _load_x509_from_endpoint parse Option.none = Option.none)
    ∧ (∀ (parse : String → Option Cert) (pem : String), parse pem = Option.none →
      _load_x509_from_endpoint parse (Option.some pem) = Option.none)
    ∧ (∀ parse : String → Option Cert,
      _load_x509_from_file parse Option.none = Option.none)
    ∧ (∀ (parse : String → Option Cert) (s : String), parse s = Option.none →
      _load_x509_from_file parse (Option.some s) = Option.none)
    ∧ (∀ (nB nA : Int) (f : Bool) (now : PyDateTime),
      _check_x509 Option.none nB nA f now = (false, "No certificate to be checked"))
    ∧ (∀ (env : Env) (d : TagData) (rest : List TagData),
      d.control = Option.none → pyTruthy d.endpoint = true → pyTruthy d.file = false →
      _load_x509_from_endpoint env.load_certificate
          (env.get_server_certificate (d.endpoint.getD "") d.port) = Option.none →
      processGroup env (d :: rest)
        = ⟨(processGroup env rest).Success,
           { d with reason := Option.some "No certificate to be checked" }
             :: (processGroup env rest).Failure,
           (processGroup env rest).Controlled⟩)
    ∧ (∀ (env : Env) (d : TagData) (rest : List TagData),
      d.control = Option.none → pyTruthy d.endpoint = false → pyTruthy d.file = true →
      _load_x509_from_file env.load_certificate (env.read_file (d.file.getD ""))
        = Option.none →
      processGroup env (d :: rest)
        = ⟨(processGroup env rest).Success,
           { d with reason := Option.some "No certificate to be checked" }
             :: (processGroup env rest).Failure,
           (processGroup env rest).Controlled⟩) := by
  refine ⟨fun parse => rfl, ?_, fun parse => rfl, ?_, fun nB nA f now => rfl, ?_, ?_⟩
  · intro parse pem h
    by_cases he : pem.isEmpty
    · simp [_load_x509_from_endpoint, he]
    · simp [_load_x509_from_endpoint, he, h]
  · intro parse s h
    simp [_load_x509_from_file, h]
  · intro env d rest hc h1 h2 hload
    have hpe : processEntry env d
        = EntryResult.failure { d with reason := Option.some "No certificate to be checked" } := by
      simp [processEntry, hc, h1, h2, hload, _check_x509]
    simp [processGroup, hpe]
  · intro env d rest hc h1 h2 hload
    have hpe : processEntry env d
        = EntryResult.failure { d with reason := Option.some "No certificate to be checked" } := by
      simp [processEntry, hc, h1, h2, hload, _check_x509]
    simp [processGroup, hpe]

/-- C7 witness: a rejected PEM reply, an unparsable file, and a two-entry
run in which an unreachable endpoint and a missing file both become the
same Failure reason while the run continues. -/
theorem C7_witness :
    _load_x509_from_endpoint (fun _ => Option.none) (Option.some "NOT A PEM") = Option.none
    ∧ _load_x509_from_file (fun _ => Option.none) (Option.some "garbage") = Option.none
    ∧ processGroup envNone [dEndpoint, dFileOnly]
        = ⟨[],
           [{ dEndpoint with reason := Option.some "No certificate to be checked" },
            { dFileOnly with reason := Option.some "No certificate to be checked" }],
           []⟩ := by
  obtain ⟨h1, h2, h3, h4, h5, h6, h7⟩ := C7_acquisition_failure_collapse
  refine ⟨h2 _ _ rfl, h4 _ _ rfl, ?_⟩
  rw [h6 envNone dEndpoint [dFileOnly] rfl rfl rfl rfl,
    h7 envNone dFileOnly [] rfl rfl rfl rfl]
  decide

/-- C10: control suppression takes precedence over source validation: a
record carrying a `control` key goes to the Controlled bucket unchanged,
for every environment, so it never fails, never acquires a certificate and
never receives a reason. -/
theorem C10_control_suppression (env : Env) (d : TagData) (s : String)
    (hc : d.control = Option.some s) :
    processEntry env d = EntryResult.controlled d
    ∧ (∀ rest : List TagData,
        processGroup env (d :: rest)
          = ⟨(processGroup env rest).Success, (processGroup env rest).Failure,
             d :: (processGroup env rest).Controlled⟩) := by
  have hpe : processEntry env d = EntryResult.controlled d := by
    simp [processEntry, hc]
  refine ⟨hpe, fun rest => ?_⟩
  simp [processGroup, hpe]

/-- C10 witness: a controlled record with both sources set is suppressed
unchanged. -/
theorem C10_witness :
    processEntry envNone dControlled = EntryResult.controlled dControlled
    ∧ processGroup envNone [dControlled] = ⟨[], [], [dControlled]⟩ :=
  ⟨(C10_control_suppression envNone dControlled "too noisy" rfl).1,
    (C10_control_suppression envNone dControlled "too noisy" rfl).2 []⟩

/-- Membership in a dedup pass: exactly the input keys not already seen. -/
theorem mem_dedupKeys {α : Type} [DecidableEq α] (l : List α) :
    ∀ (seen : List α) (a : α), a ∈ dedupKeys l seen ↔ a ∈ l ∧ a ∉ seen := by
  induction l with
  | nil =>
    intro seen a
    simp [dedupKeys]
  | cons k rest ih =>
    intro seen a
    rw [dedupKeys]
    by_cases hk : k ∈ seen
    · rw [if_pos hk, ih]
      simp only [List.mem_cons]
      constructor
      · rintro ⟨h1, h2⟩
        exact ⟨Or.inr h1, h2⟩
      · rintro ⟨h1 | h1, h2⟩
        · subst h1
          exact absurd hk h2
        · exact ⟨h1, h2⟩
    · rw [if_neg hk]
      simp only [List.mem_cons, ih]
      constructor
      · rintro (rfl | ⟨h1, h2⟩)
        · exact ⟨Or.inl rfl, hk⟩
        · exact ⟨Or.inr h1, fun hs => h2 (Or.inr hs)⟩
      · rintro ⟨rfl | h1, h2⟩
        · exact Or.inl rfl
        · by_cases hak : a = k
          · exact Or.inl hak
          · exact Or.inr ⟨h1, fun hs => hs.elim hak h2⟩

/-- A dedup pass emits no key twice. -/
theorem nodup_dedupKeys {α : Type} [DecidableEq α] (l : List α) :
    ∀ seen : List α, (dedupKeys l seen).Nodup := by
  induction l with
  | nil =>
    intro seen
    simp [dedupKeys]
  | cons k rest ih =>
    intro seen
    rw [dedupKeys]
    by_cases hk : k ∈ seen
    · rw [if_pos hk]
      exact ih seen
    · rw [if_neg hk]
      rw [List.nodup_cons]
      refine ⟨fun hmem => ?_, ih (k :: seen)⟩
      rw [mem_dedupKeys] at hmem
      exact hmem.2 (List.mem_cons_self k seen)

/-- A dedup pass preserves first-seen order: its output is a sublist of the
input key sequence. -/
theorem dedupKeys_sublist {α : Type} [DecidableEq α] (l : List α) :
    ∀ seen : List α, List.Sublist (dedupKeys l seen) l := by
  induction l with
  | nil =>
    intro seen
    simp [dedupKeys]
  | cons k rest ih =>
    intro seen
    rw [dedupKeys]
    by_cases hk : k ∈ seen
    · rw [if_pos hk]
      exact List.Sublist.cons k (ih seen)
    · rw [if_neg hk]
      exact List.Sublist.cons₂ k (ih (k :: seen))

/-- A dedup pass over an empty seen set is empty only on empty input. -/
theorem dedupKeys_nil_iff {α : Type} [DecidableEq α] (l : List α) :
    dedupKeys l [] = [] ↔ l = [] := by
  cases l with
  | nil => simp [dedupKeys]
  | cons k rest => simp [dedupKeys]

/-- The Success / Failure collapse loop is a dedup pass over the
`(tag, description)` keys. -/
theorem collapseBucket_eq (l : List TagData) :
    ∀ seen, collapseBucket l seen = dedupKeys (l.map bucketKey) seen := by
  induction l with
  | nil =>
    intro seen
    rfl
  | cons d rest ih =>
    intro seen
    by_cases h : (d.tag, d.description) ∈ seen
    · simp [collapseBucket, dedupKeys, bucketKey, h, ih]
    · simp [collapseBucket, dedupKeys, bucketKey, h, ih]

/-- The Controlled collapse loop is a dedup pass over the
`(tag, description, control)` keys. -/
theorem collapseControlled_eq (l : List TagData) :
    ∀ seen, collapseControlled l seen = dedupKeys (l.map controlledKey) seen := by
  induction l with
  | nil =>
    intro seen
    rfl
  | cons d rest ih =>
    intro seen
    by_cases h : (d.tag, d.description, d.control.getD "") ∈ seen
    · simp [collapseControlled, dedupKeys, controlledKey, h, ih]
    · simp [collapseControlled, dedupKeys, controlledKey, h, ih]

/-- The collapsed Success bucket as a dedup pass. -/
theorem audit_nonverbose_Success_eq (env : Env) (tm : String → Bool)
    (M : List (String × List TagData)) :
    (audit_nonverbose env tm M).Success
      = dedupKeys ((auditLoop env tm M).Success.map bucketKey) [] := by
  simp [audit_nonverbose, collapseBucket_eq]

/-- The collapsed Failure bucket as a dedup pass. -/
theorem audit_nonverbose_Failure_eq (env : Env) (tm : String → Bool)
    (M : List (String × List TagData)) :
    (audit_nonverbose env tm M).Failure
      = dedupKeys ((auditLoop env tm M).Failure.map bucketKey) [] := by
  simp [audit_nonverbose, collapseBucket_eq]

/-- The collapsed Controlled bucket (read with default `[]`) as a dedup
pass. -/
theorem audit_nonverbose_Controlled_eq (env : Env) (tm : String → Bool)
    (M : List (String × List TagData)) :
    (audit_nonverbose env tm M).Controlled.getD []
      = dedupKeys ((auditLoop env tm M).Controlled.map controlledKey) [] := by
  simp only [audit_nonverbose, collapseControlled_eq]
  split
  · next h =>
    rw [List.isEmpty_iff] at h
    exact h.symm
  · rfl

/-- C8 counterexample: with verbose = false, two controlled entries sharing
tag and description but carrying different control reasons both survive the
collapse, so the same `(tag, description)` pair appears twice in the
Controlled bucket. -/
theorem C8_counterexample :
    (audit_nonverbose envNone (fun _ => true) [("CERT-006", [dCtlA, dCtlB])]).Controlled
      = Option.some [("CERT-006", Option.some "duplicated description", "ticket-1"),
                     ("CERT-006", Option.some "duplicated description", "ticket-2")]
    ∧ ¬ (List.map (fun q => (q.1, q.2.1))
          ((audit_nonverbose envNone (fun _ => true)
              [("CERT-006", [dCtlA, dCtlB])]).Controlled.getD [])).Nodup := by
  constructor
  · decide
  · decide

/-- C8 (amended): with verbose = false the Success and Failure buckets
collapse to `(tag, description)` pairs and the Controlled bucket to
`(tag, description, control)` triples, each in first-seen order with
set-semantics dedup on its full key — so a `(tag, description)` pair occurs
at most once in Success and in Failure, while in Controlled it is the
triple including the control reason that occurs at most once — and the
Controlled bucket is omitted exactly when no controlled entry was
collected. -/
theorem C8_nonverbose_collapse (env : Env) (tm : String → Bool)
    (M : List (String × List TagData)) :
    ((audit_nonverbose env tm M).Success.Nodup
      ∧ (∀ p, p ∈ (audit_nonverbose env tm M).Success
          ↔ p ∈ (auditLoop env tm M).Success.map bucketKey)
      ∧ List.Sublist (audit_nonverbose env tm M).Success
          ((auditLoop env tm M).Success.map bucketKey))
    ∧ ((audit_nonverbose env tm M).Failure.Nodup
      ∧ (∀ p, p ∈ (audit_nonverbose env tm M).Failure
          ↔ p ∈ (auditLoop env tm M).Failure.map bucketKey)
      ∧ List.Sublist (audit_nonverbose env tm M).Failure
          ((auditLoop env tm M).Failure.map bucketKey))
    ∧ (((audit_nonverbose env tm M).Controlled.getD []).Nodup
      ∧ (∀ q, q ∈ (audit_nonverbose env tm M).Controlled.getD []
          ↔ q ∈ (auditLoop env tm M).Controlled.map controlledKey)
      ∧ List.Sublist ((audit_nonverbose env tm M).Controlled.getD [])
          ((auditLoop env tm M).Controlled.map controlledKey))
    ∧ ((audit_nonverbose env tm M).Controlled = Option.none
        ↔ (auditLoop env tm M).Controlled = []) := by
  refine ⟨⟨?_, ?_, ?_⟩, ⟨?_, ?_, ?_⟩, ⟨?_, ?_, ?_⟩, ?_⟩
  · rw [audit_nonverbose_Success_eq]
    exact nodup_dedupKeys _ _
  · intro p
    rw [audit_nonverbose_Success_eq, mem_dedupKeys]
    simp
  · rw [audit_nonverbose_Success_eq]
    exact dedupKeys_sublist _ _
  · rw [audit_nonverbose_Failure_eq]
    exact nodup_dedupKeys _ _
  · intro p
    rw [audit_nonverbose_Failure_eq, mem_dedupKeys]
    simp
  · rw [audit_nonverbose_Failure_eq]
    exact dedupKeys_sublist _ _
  · rw [audit_nonverbose_Controlled_eq]
    exact nodup_dedupKeys _ _
  · intro q
    rw [audit_nonverbose_Controlled_eq, mem_dedupKeys]
    simp
  · rw [audit_nonverbose_Controlled_eq]
    exact dedupKeys_sublist _ _
  · cases hC0 : (auditLoop env tm M).Controlled with
    | nil => simp [audit_nonverbose, collapseControlled_eq, hC0, dedupKeys]
    | cons d t => simp [audit_nonverbose, collapseControlled_eq, hC0, dedupKeys]

/-- A key outside the key list of a dictionary has no binding. -/
theorem dictLookup_eq_none_of_not_mem (d : Dict) (k : String) :
    k ∉ d.map Prod.fst → dictLookup d k = Option.none := by
  induction d with
  | nil =>
    intro _
    rfl
  | cons kv rest ih =>
    intro h
    obtain ⟨k0, v0⟩ := kv
    have hne : k0 ≠ k := by
      intro he
      exact h (by simp [he])
    have hrest : k ∉ rest.map Prod.fst := fun hm => h (by simp [hm])
    simp [dictLookup, hne, ih hrest]

/-- A present binding makes `pop` succeed. -/
theorem dictPop_of_lookup_isSome (d : Dict) (k : String) :
    (dictLookup d k).isSome → ∃ v d2, dictPop d k = Option.some (v, d2) := by
  induction d with
  | nil =>
    intro h
    simp [dictLookup] at h
  | cons kv rest ih =>
    intro h
    obtain ⟨k0, v0⟩ := kv
    by_cases hk : k0 = k
    · exact ⟨v0, rest, by simp [dictPop, hk]⟩
    · rw [dictLookup, if_neg hk] at h
      obtain ⟨v, d2, hp⟩ := ih h
      exact ⟨v, (k0, v0) :: d2, by simp [dictPop, hk, hp]⟩

/-- After popping a key out of a dictionary with unique keys, the key has no
binding left. -/
theorem dictPop_lookup_none (d : Dict) (k : String) :
    ∀ (v : PVal) (d2 : Dict), (d.map Prod.fst).Nodup →
      dictPop d k = Option.some (v, d2) → dictLookup d2 k = Option.none := by
  induction d with
  | nil =>
    intro v d2 _ hp
    simp [dictPop] at hp
  | cons kv rest ih =>
    intro v d2 hnd hp
    obtain ⟨k0, v0⟩ := kv
    rw [List.map_cons, List.nodup_cons] at hnd
    by_cases hk : k0 = k
    · rw [dictPop, if_pos hk] at hp
      have hpair : v0 = v ∧ rest = d2 := by
        have := Option.some.inj hp
        exact ⟨congrArg Prod.fst this, congrArg Prod.snd this⟩
      obtain ⟨-, rfl⟩ := hpair
      exact dictLookup_eq_none_of_not_mem rest k (hk ▸ hnd.1)
    · rw [dictPop, if_neg hk] at hp
      cases hrest : dictPop rest k with
      | none =>
        rw [hrest] at hp
        simp at hp
      | some p =>
        obtain ⟨v1, rest1⟩ := p
        rw [hrest] at hp
        have hpair := Option.some.inj hp
        have h2 : (k0, v0) :: rest1 = d2 := congrArg Prod.snd hpair
        rw [← h2, dictLookup, if_neg hk]
        exact ih v1 rest1 hnd.2 hrest

/-- Setting a key makes its binding the set value. -/
theorem dictLookup_dictSet_self (d : Dict) (k : String) (v : PVal) :
    dictLookup (dictSet d k v) k = Option.some v := by
  induction d with
  | nil => simp [dictSet, dictLookup]
  | cons kv rest ih =>
    obtain ⟨k0, v0⟩ := kv
    by_cases hk : k0 = k
    · simp [dictSet, dictLookup, hk]
    · simp [dictSet, dictLookup, hk, ih]

/-- Setting one key leaves the bindings of other keys unchanged. -/
theorem dictLookup_dictSet_ne (d : Dict) (a k : String) (v : PVal) (h : a ≠ k) :
    dictLookup (dictSet d a v) k = dictLookup d k := by
  induction d with
  | nil => simp [dictSet, dictLookup, h]
  | cons kv rest ih =>
    obtain ⟨k0, v0⟩ := kv
    by_cases hk : k0 = a
    · subst hk
      simp [dictSet, dictLookup, h]
    · by_cases hk2 : k0 = k
      · simp [dictSet, dictLookup, hk, hk2, Ne.symm h]
      · simp [dictSet, dictLookup, hk, hk2, ih]

/-- Setting a key preserves the presence of every key. -/
theorem isSome_dictLookup_dictSet (d : Dict) (a k : String) (v : PVal)
    (h : (dictLookup d k).isSome) : (dictLookup (dictSet d a v) k).isSome := by
  by_cases hak : a = k
  · subst hak
    rw [dictLookup_dictSet_self]
    rfl
  · rw [dictLookup_dictSet_ne d a k v hak]
    exact h

/-- `update` preserves the presence of every key of the base dictionary. -/
theorem isSome_dictLookup_dictUpdate_left (e : Dict) :
    ∀ (d : Dict) (k : String), (dictLookup d k).isSome →
      (dictLookup (dictUpdate d e) k).isSome := by
  induction e with
  | nil =>
    intro d k h
    exact h
  | cons kv rest ih =>
    intro d k h
    obtain ⟨k0, v0⟩ := kv
    exact ih (dictSet d k0 v0) k (isSome_dictLookup_dictSet d k0 k v0 h)

/-- `update` makes every key of the update dictionary present. -/
theorem isSome_dictLookup_dictUpdate_right (e : Dict) :
    ∀ (d : Dict) (k : String), (dictLookup e k).isSome →
      (dictLookup (dictUpdate d e) k).isSome := by
  induction e with
  | nil =>
    intro d k h
    simp [dictLookup] at h
  | cons kv rest ih =>
    intro d k h
    obtain ⟨k0, v0⟩ := kv
    by_cases hk : k0 = k
    · subst hk
      exact isSome_dictLookup_dictUpdate_left rest (dictSet d k0 v0) k0
        (by rw [dictLookup_dictSet_self]; rfl)
    · rw [dictLookup, if_neg hk] at h
      exact ih (dictSet d k0 v0) k h

/-- Writing back at an address keeps the store length. -/
theorem storeSet_length (σ : Store) (r : Nat) (d : Dict) :
    (storeSet σ r d).length = σ.length := by
  simp [storeSet]

/-- Reading the address just written returns the written dictionary. -/
theorem storeGet_storeSet_self (σ : Store) :
    ∀ (r : Nat) (d : Dict), r < σ.length → storeGet (storeSet σ r d) r = d := by
  induction σ with
  | nil =>
    intro r d h
    simp at h
  | cons a t ih =>
    intro r d h
    cases r with
    | zero => rfl
    | succ n => exact ih n d (Nat.lt_of_succ_lt_succ h)

/-- Reading any other address is unaffected by a write. -/
theorem storeGet_storeSet_ne (σ : Store) :
    ∀ (r rp : Nat) (d : Dict), rp ≠ r → storeGet (storeSet σ r d) rp = storeGet σ rp := by
  induction σ with
  | nil =>
    intro r rp d _
    rfl
  | cons a t ih =>
    intro r rp d h
    cases r with
    | zero =>
      cases rp with
      | zero => exact absurd rfl h
      | succ m => rfl
    | succ n =>
      cases rp with
      | zero => rfl
      | succ m => exact ih n m d (fun he => h (congrArg Nat.succ he))

/-- Unfolding a successful `entryRef`. -/
theorem entryRef_some_lookup (e : String × Dict) (r : Nat)
    (h : entryRef e = Option.some r) :
    dictLookup e.2 "data" = Option.some (PVal.vref r) := by
  unfold entryRef at h
  cases hl : dictLookup e.2 "data" with
  | none =>
    rw [hl] at h
    simp at h
  | some v =>
    rw [hl] at h
    cases v with
    | vs s => simp at h
    | vi n => simp at h
    | vb b => simp at h
    | vnone => simp at h
    | vref r0 =>
      simp at h
      subst h
      rfl

/-- One `_get_tags` step on a well-formed entry: the shared `data`
dictionary has its `tag` binding popped in place, and the step succeeds. -/
theorem getTagsEntry_spec (σ : Store) (ad : Dict) (r : Nat)
    (h : dictLookup ad "data" = Option.some (PVal.vref r))
    (hs : (dictLookup (storeGet σ r) "tag").isSome)
    (hnd : ((storeGet σ r).map Prod.fst).Nodup) :
    ∃ tagv fd popped,
      dictPop (storeGet σ r) "tag" = Option.some (tagv, popped)
      ∧ getTagsEntry σ ad = Option.some (tagv, fd, storeSet σ r popped)
      ∧ dictLookup popped "tag" = Option.none := by
  obtain ⟨tagv, popped, hp⟩ := dictPop_of_lookup_isSome _ _ hs
  have hln := dictPop_lookup_none _ _ tagv popped hnd hp
  have hfs : (dictLookup (dictUpdate (dictSet (dictSet popped "tag" tagv) "module"
      (PVal.vs "openssl")) ad) "data").isSome :=
    isSome_dictLookup_dictUpdate_right ad _ "data" (by rw [h]; rfl)
  obtain ⟨x, fd, hf⟩ := dictPop_of_lookup_isSome _ _ hfs
  refine ⟨tagv, fd, popped, hp, ?_, hln⟩
  simp only [getTagsEntry, h, hp, hf]

/-- The `_get_tags` loop over well-formed entries with pairwise distinct
`data` references: it succeeds, every processed entry's shared dictionary
has lost its `tag` binding, and every unreferenced address is untouched. -/
theorem getTagsLoop_spec :
    ∀ (L : List (String × Dict)) (σ : Store) (ret : List (PVal × List Dict)),
      (∀ e ∈ L, ∃ r, entryRef e = Option.some r ∧ r < σ.length
          ∧ (dictLookup (storeGet σ r) "tag").isSome
          ∧ ((storeGet σ r).map Prod.fst).Nodup) →
      (L.filterMap entryRef).Nodup →
      ∃ out σ2,
        getTagsLoop σ L ret = Option.some (out, σ2)
        ∧ σ2.length = σ.length
        ∧ (∀ r, r ∉ L.filterMap entryRef → storeGet σ2 r = storeGet σ r)
        ∧ (∀ e ∈ L, ∀ r, entryRef e = Option.some r →
            dictLookup (storeGet σ2 r) "tag" = Option.none) := by
  intro L
  induction L with
  | nil =>
    intro σ ret _ _
    exact ⟨ret, σ, rfl, rfl, fun r _ => rfl, fun e he => absurd he (List.not_mem_nil e)⟩
  | cons e L ih =>
    intro σ ret hH hnd
    obtain ⟨r, her, hlt, hsome, hkeys⟩ := hH e (List.mem_cons_self e L)
    have hlook := entryRef_some_lookup e r her
    obtain ⟨tagv, fd, popped, hp, hentry, hln⟩ := getTagsEntry_spec σ e.2 r hlook hsome hkeys
    have hfm : (e :: L).filterMap entryRef = r :: L.filterMap entryRef := by
      simp [List.filterMap_cons, her]
    rw [hfm, List.nodup_cons] at hnd
    obtain ⟨hrnot, hndL⟩ := hnd
    have hlen1 : (storeSet σ r popped).length = σ.length := storeSet_length σ r popped
    have hother : ∀ rp, rp ≠ r → storeGet (storeSet σ r popped) rp = storeGet σ rp :=
      fun rp hne => storeGet_storeSet_ne σ r rp popped hne
    have hself : storeGet (storeSet σ r popped) r = popped :=
      storeGet_storeSet_self σ r popped hlt
    have hH2 : ∀ e2 ∈ L, ∃ r2, entryRef e2 = Option.some r2
        ∧ r2 < (storeSet σ r popped).length
        ∧ (dictLookup (storeGet (storeSet σ r popped) r2) "tag").isSome
        ∧ ((storeGet (storeSet σ r popped) r2).map Prod.fst).Nodup := by
      intro e2 he2
      obtain ⟨r2, her2, hlt2, hsome2, hkeys2⟩ := hH e2 (List.mem_cons_of_mem e he2)
      have hne : r2 ≠ r := by
        intro hEq
        exact hrnot (hEq ▸ List.mem_filterMap.mpr ⟨e2, he2, her2⟩)
      refine ⟨r2, her2, ?_, ?_, ?_⟩
      · rw [hlen1]
        exact hlt2
      · rw [hother r2 hne]
        exact hsome2
      · rw [hother r2 hne]
        exact hkeys2
    obtain ⟨out, σ2, hloop, hlen2, huntouched, hpopped⟩ :=
      ih (storeSet σ r popped) (appendTag ret tagv fd) hH2 hndL
    refine ⟨out, σ2, ?_, ?_, ?_, ?_⟩
    · obtain ⟨id, ad⟩ := e
      simp only [getTagsLoop, hentry]
      exact hloop
    · rw [hlen2, hlen1]
    · intro rp hnotin
      rw [hfm] at hnotin
      have h1 : rp ≠ r := fun hEq => hnotin (hEq ▸ List.mem_cons_self r _)
      have h2 : rp ∉ L.filterMap entryRef := fun hm => hnotin (List.mem_cons_of_mem r hm)
      rw [huntouched rp h2, hother rp h1]
    · intro e2 he2 r2 her2
      cases List.mem_cons.mp he2 with
      | inl hEq =>
        subst hEq
        have hrr : r2 = r := by
          have := her2.symm.trans her
          exact Option.some.inj this
        subst hrr
        rw [huntouched r2 hrnot, hself]
        exact hln
      | inr hm => exact hpopped e2 hm r2 her2

/-- Flattening a list of singletons gives back the list. -/
theorem flatten_map_singleton {α : Type} (l : List α) :
    (l.map (fun a => [a])).flatten = l := by
  induction l with
  | nil => rfl
  | cons a t ih => simp [ih]

/-- The merged `__data__['openssl']` flattens to the concatenation of the
inputs: merging only re-wraps each item as a singleton. -/
theorem foldl_merge_yaml_flatten (dl : List (List (String × Dict))) :
    ∀ init : List (List (String × Dict)),
      (dl.foldl _merge_yaml init).flatten = init.flatten ++ dl.flatten := by
  induction dl with
  | nil =>
    intro init
    simp
  | cons d rest ih =>
    intro init
    rw [List.foldl_cons, ih]
    simp [_merge_yaml, flatten_map_singleton]

/-- The data-consuming phase of `audit` is the `_get_tags` loop over the
flattened entries of `data_list`. -/
theorem audit_data_phase_eq (σ : Store) (dl : List (List (String × Dict))) :
    audit_data_phase σ dl = getTagsLoop σ dl.flatten [] := by
  unfold audit_data_phase _get_tags
  rw [foldl_merge_yaml_flatten]
  simp

/-- Every record the loop body routes to the Failure bucket carries a
`reason`. -/
theorem processEntry_failure_reason (env : Env) (d d0 : TagData)
    (h : processEntry env d = EntryResult.failure d0) : d0.reason.isSome = true := by
  unfold processEntry at h
  split at h
  · simp at h
  · split at h
    · injection h with h2
      rw [← h2]
      rfl
    · split at h
      · injection h with h2
        rw [← h2]
        rfl
      · split at h
        · dsimp only at h
          split at h
          · simp at h
          · injection h with h2
            rw [← h2]
            rfl
        · dsimp only at h
          split at h
          · simp at h
          · injection h with h2
            rw [← h2]
            rfl

/-- Every record in the Failure bucket of a group carries a `reason`. -/
theorem processGroup_failure_reason (env : Env) (l : List TagData) :
    ∀ d0 ∈ (processGroup env l).Failure, d0.reason.isSome = true := by
  induction l with
  | nil =>
    intro d0 h
    simp [processGroup] at h
  | cons d rest ih =>
    intro d0 h
    cases hpe : processEntry env d with
    | success d1 =>
      simp only [processGroup, hpe] at h
      exact ih d0 h
    | failure d1 =>
      simp only [processGroup, hpe, List.mem_cons] at h
      cases h with
      | inl hEq =>
        subst hEq
        exact processEntry_failure_reason env d d0 hpe
      | inr hm => exact ih d0 hm
    | controlled d1 =>
      simp only [processGroup, hpe] at h
      exact ih d0 h

/-- Every record in the Failure bucket of a whole run carries a `reason`. -/
theorem auditLoop_failure_reason (env : Env) (tm : String → Bool) :
    ∀ (M : List (String × List TagData)), ∀ d0 ∈ (auditLoop env tm M).Failure,
      d0.reason.isSome = true := by
  intro M
  induction M with
  | nil =>
    intro d0 h
    simp [auditLoop] at h
  | cons p rest ih =>
    obtain ⟨t, l⟩ := p
    intro d0 h
    simp only [auditLoop] at h
    split at h
    · simp only [List.mem_append] at h
      cases h with
      | inl hg => exact processGroup_failure_reason env l d0 hg
      | inr hr => exact ih d0 hr
    · exact ih d0 h

/-- C9: `audit` mutates its input: its data-consuming phase pops the `tag`
binding out of every entry's shared `data` dictionary in the caller's
`data_list` (so the store afterwards differs whenever there was an entry),
while the `reason` of a failing entry is written into the internal per-tag
record, every Failure-bucket record carrying one. -/
theorem C9_audit_mutates_input :
    (∀ (σ : Store) (data_list : List (List (String × Dict))),
      (∀ e ∈ data_list.flatten, ∃ r, entryRef e = Option.some r ∧ r < σ.length
          ∧ (dictLookup (storeGet σ r) "tag").isSome
          ∧ ((storeGet σ r).map Prod.fst).Nodup) →
      (data_list.flatten.filterMap entryRef).Nodup →
      ∃ out σ2,
        audit_data_phase σ data_list = Option.some (out, σ2)
        ∧ (∀ e ∈ data_list.flatten, ∀ r, entryRef e = Option.some r →
            dictLookup (storeGet σ2 r) "tag" = Option.none)
        ∧ (data_list.flatten ≠ [] → σ2 ≠ σ))
    ∧ (∀ (env : Env) (tm : String → Bool) (M : List (String × List TagData)),
        ∀ d0 ∈ (auditLoop env tm M).Failure, d0.reason.isSome = true) := by
  constructor
  · intro σ dl hH hnd
    obtain ⟨out, σ2, hloop, hlen, huntouched, hpop⟩ := getTagsLoop_spec dl.flatten σ [] hH hnd
    refine ⟨out, σ2, ?_, hpop, ?_⟩
    · rw [audit_data_phase_eq]
      exact hloop
    · intro hne hEq
      cases hfl : dl.flatten with
      | nil => exact hne hfl
      | cons e t =>
        obtain ⟨r, her, hlt, hsome, hkeys⟩ := hH e (by rw [hfl]; exact List.mem_cons_self e t)
        have h1 := hpop e (by rw [hfl]; exact List.mem_cons_self e t) r her
        rw [hEq] at h1
        rw [h1] at hsome
        simp at hsome
  · intro env tm M
    exact auditLoop_failure_reason env tm M

/-- C9 witness: at the sample store and policy list, the data phase
succeeds, the shared `data` dictionary loses its `tag` binding, the store is
changed; and a concrete failing record in a run carries its written
`reason`. -/
theorem C9_witness :
    (∃ out σ2,
      audit_data_phase storeSample dataListSample = Option.some (out, σ2)
      ∧ (∀ e ∈ dataListSample.flatten, ∀ r, entryRef e = Option.some r →
          dictLookup (storeGet σ2 r) "tag" = Option.none)
      ∧ (dataListSample.flatten ≠ [] → σ2 ≠ storeSample))
    ∧ ({ dNoSource with reason := Option.some "No certificate to be checked" }
        : TagData).reason.isSome = true :=
  ⟨C9_audit_mutates_input.1 storeSample dataListSample
    (by
      intro e he
      have he2 : e = entrySample := by
        simpa [dataListSample] using he
      subst he2
      exact ⟨0, by decide, by decide, by decide, by decide⟩)
    (by decide),
   C9_audit_mutates_input.2 envNone (fun _ => true) [("CERT-001", [dNoSource])]
    { dNoSource with reason := Option.some "No certificate to be checked" } (by decide)⟩
